import Mathlib

/-!
Verification of the `pynet.augmentation.spatial` module
(`src/pynet/augmentation/spatial.py`) against its natural-language
specification.

Shallow embedding conventions:

* Array values and random draws are rationals (`ℚ`); numpy floats are
  modelled by exact rational arithmetic.
* An n-dimensional numpy array is a shape together with a value at each
  multi-index (`NDArray`); "bit-identical" equality of two arrays is
  equality of shape and of the row-major (C-order) listing of elements
  (`NDArray.sig`).
* The process-wide numpy random generator (`np.random`) is modelled by an
  explicit state (`RandomState`) threaded through every operation.
  `np.random.seed(s)` resets the state to a canonical state determined by
  `s` alone, exactly as in numpy; the concrete draw formula (`mix`,
  `unitQ`) is a deterministic executable stand-in for the Mersenne
  twister — no claim below depends on the numeric value of any draw,
  only on the seeding/threading discipline that `spatial.py` itself
  implements.
* Python exceptions are modelled by `Except PynetError`; the error kinds
  follow the specification's taxonomy (§7) mapped onto the actual raise
  sites of the code and of the library routines it calls.
* `scipy.ndimage.map_coordinates` is external to the repository.  It is
  modelled with its two documented behaviours the code relies on:
  it rejects a spline order outside `[0, 5]`, and at exact integer
  in-range coordinates (the knots) spline interpolation of every order
  reproduces the input values exactly.  Off-grid evaluation is modelled
  by an executable order-0-style fallback (`interpFallback`); no theorem
  below depends on an off-grid value.
* `transform.py` and `utils.py` are imported by `spatial.py` but are not
  under `src/`; their members (`interval`, `compose`, `affine_flow`,
  `gaussian_random_field`) are modelled from the specification, as noted
  in their doc comments.
-/

namespace Pynet

/-- Error taxonomy of the specification (§7): out-of-range spline order /
malformed interval; unknown distribution name; array rank incompatible
with the 3-axis rotation assumptions. -/
inductive PynetError where
  | invalidParameter
  | unsupportedDistribution
  | dimensionMismatch
deriving DecidableEq

/-- State of the process-wide numpy random generator: the seed value it
was last seeded with and the number of variates drawn since.  Models the
global `np.random` state that `spatial.py` mutates via `np.random.seed`. -/
structure RandomState where
  seedVal : Nat
  counter : Nat
deriving DecidableEq

/-- Deterministic 64-bit mixing function: executable stand-in for the
Mersenne-twister stream underneath `np.random`.  Machine arithmetic is
modelled as `Nat` with an explicit `% 2^64`. -/
def mix (a b : Nat) : Nat :=
  (a * 6364136223846793005 + b * 2654435761 + 1442695040888963407) % (2 ^ 64)

/-- One unit-interval variate of the modelled generator: the variate a
freshly advanced state produces, as a rational in `[0, 1)`. -/
def unitQ (sv c : Nat) : ℚ :=
  ((mix sv c % 1009 : Nat) : ℚ) / 1009

/-- Model of `np.random.seed(seed)`: with an integer seed the state is
reset to a canonical state depending only on the seed; with `None` numpy
reseeds from OS entropy, modelled as an unpredictable state-dependent
reseed (all that matters is that it is not seed-determined). -/
def npSeed : Option Nat → RandomState → RandomState
  | some s, _ => ⟨s, 0⟩
  | none, g => ⟨mix g.seedVal g.counter, 0⟩

/-- Model of `np.random.uniform(low, high, size)`: `size` variates
`low + (high - low) * u` with `u` from the stream, advancing the state. -/
def npUniform (low high : ℚ) (size : Nat) (g : RandomState) : List ℚ × RandomState :=
  ((List.range size).map (fun t => low + (high - low) * unitQ g.seedVal (g.counter + t)),
   ⟨g.seedVal, g.counter + size⟩)

/-- Model of `np.random.randint(low, high, size)` (integer variates in
`[low, high)`), advancing the state. -/
def npRandint (low high size : Nat) (g : RandomState) : List Nat × RandomState :=
  ((List.range size).map (fun t => low + mix g.seedVal (g.counter + t) % (high - low)),
   ⟨g.seedVal, g.counter + size⟩)

/-- Model of `np.random.lognormal(mean=0, sigma=1, size)`: `size`
strictly positive variates from the stream (a rational stand-in for the
log-normal density; no claim depends on the distribution's shape),
advancing the state. -/
def npLognormal (size : Nat) (g : RandomState) : List ℚ × RandomState :=
  ((List.range size).map (fun t => 1 + unitQ g.seedVal (g.counter + t)),
   ⟨g.seedVal, g.counter + size⟩)

/-- An n-dimensional numpy array: a shape and a value at every
multi-index (row-major semantics; only indices pointwise below the shape
are meaningful). -/
structure NDArray where
  shape : List Nat
  val : List Nat → ℚ

/-- Model of `arr.ndim`: the rank of the array. -/
def NDArray.ndim (A : NDArray) : Nat := A.shape.length

/-- Row-major (C-order) enumeration of all valid multi-indices of a
shape, mirroring numpy's memory order. -/
def allIndices : List Nat → List (List Nat)
  | [] => [[]]
  | d :: ds => (List.range d).flatMap (fun x => (allIndices ds).map (x :: ·))

/-- Row-major listing of the elements of an array — the flattened buffer
a bit-identical comparison of numpy arrays compares. -/
def NDArray.toList (A : NDArray) : List ℚ :=
  (allIndices A.shape).map A.val

/-- Observable signature of an array: its shape and its element buffer.
Two numpy arrays are bit-identical exactly when their signatures agree. -/
def NDArray.sig (A : NDArray) : List Nat × List ℚ :=
  (A.shape, A.toList)

/-- Bit-identical equality of two modelled arrays. -/
def Ident (A B : NDArray) : Prop := A.sig = B.sig

/-- A fallible result is bit-identical to an array when it succeeded and
the produced array is bit-identical to it. -/
def okIdent (r : Except PynetError NDArray) (A : NDArray) : Prop :=
  r.toOption.map NDArray.sig = some A.sig

/-- Index map of `np.flip(arr, axis=k)`: coordinate `k` of a multi-index
is reflected (`x ↦ shape[k] - 1 - x`), all others are untouched. -/
def flipIdx : List Nat → Nat → List Nat → List Nat
  | _, _, [] => []
  | [], _, i => i
  | d :: _, 0, x :: xs => (d - 1 - x) :: xs
  | _ :: ds, k + 1, x :: xs => x :: flipIdx ds k xs

/-- Model of `np.flip(arr, axis=k)`: a pure reindexing view — the value
at a multi-index is the input's value at the reflected multi-index.  No
arithmetic on element values is performed (flip never interpolates). -/
def npFlip (A : NDArray) (k : Nat) : NDArray :=
  ⟨A.shape, fun i => A.val (flipIdx A.shape k i)⟩

/-- Argument form of the `rotation`/`translation` parameters of
`affine`: a single scalar or an explicit pair (spec §3). -/
inductive IntervalArg where
  | scalar (v : ℚ)
  | pair (lo hi : ℚ)

/-- Modelled from the spec: `interval` from `pynet.augmentation.utils`
(not under `src/`).  Per §3, a single scalar `v` denotes the symmetric
interval `(-v, v)` and an explicit pair passes through. -/
def interval : IntervalArg → ℚ × ℚ
  | .scalar v => (-v, v)
  | .pair lo hi => (lo, hi)

/-- Model of `random_generator` (spatial.py lines 155-193).  `"uniform"`:
reseed, then `size` uniform variates on the interval.  `"lognormal"`:
reseed, draw random signs via `randint(0, 2, size) * 2 - 1`, reseed
again, draw log-normal variates, divide by `12.5` and multiply by
`sign * interval[1]`.  Any other distribution name raises
`ValueError("Unsupported sampling distribution.")`, modelled as the
`unsupportedDistribution` error, with the generator state untouched. -/
def random_generator (I : ℚ × ℚ) (size : Nat) (dist : String) (seed : Option Nat)
    (g : RandomState) : Except PynetError (List ℚ) × RandomState :=
  if dist = "uniform" then
    match npUniform I.1 I.2 size (npSeed seed g) with
    | (vs, g1) => (Except.ok vs, g1)
  else if dist = "lognormal" then
    match npRandint 0 2 size (npSeed seed g) with
    | (signs, g1) =>
      match npLognormal size (npSeed seed g1) with
      | (vs, g2) =>
        (Except.ok (List.zipWith (fun v sg => v / (25 / 2) * (sg * I.2)) vs
            (signs.map (fun z : Nat => 2 * (z : ℚ) - 1))), g2)
  else
    (Except.error PynetError.unsupportedDistribution, g)

/-- Modelled stand-in for scipy's
`Rotation.from_euler("xyz", angles, degrees=True).as_matrix()` at rank 3
(external library): a 3×3 matrix built rationally from the three angles
(small-angle linearization).  No claim depends on the matrix entries;
`spatial.py` only relies on `from_euler` rejecting an angle vector whose
length is not 3, which `affine` below models as the rank check. -/
def eulerXYZ (angles : List ℚ) : List (List ℚ) :=
  [[1, -(angles.getD 2 0), angles.getD 1 0],
   [angles.getD 2 0, 1, -(angles.getD 0 0)],
   [-(angles.getD 1 0), angles.getD 0 0, 1]]

/-- An affine coordinate map: linear part (rows of a matrix) plus an
additive offset per axis. -/
structure AffineMat where
  linear : List (List ℚ)
  offset : List ℚ

/-- Modelled from the spec: `compose` from `pynet.augmentation.transform`
(not under `src/`).  Per §4.2 step 4, zoom and rotation combine
multiplicatively (row `i` of the rotation matrix scaled by `zooms[i]`)
and the translation is additive. -/
def compose (translations : List ℚ) (rotation : List (List ℚ)) (zooms : List ℚ) :
    AffineMat :=
  ⟨List.zipWith (fun z row => row.map (fun a => z * a)) zooms rotation, translations⟩

/-- Dot product of two coordinate rows. -/
def dotQ (a b : List ℚ) : ℚ := (List.zipWith (fun x y => x * y) a b).sum

/-- Modelled from the spec: `affine_flow` from
`pynet.augmentation.transform` (not under `src/`).  Per §4.2 step 4 it
produces the dense coordinate field of shape `(ndim, *shape)` whose
value at voxel index `idx` is the affine map applied to `idx`; here the
field is represented directly as the function from a voxel's multi-index
to its sampling coordinates (the `reshape(len(shape), -1)` flattening in
`affine` and the final `reshape(shape)` cancel under this view). -/
def affine_flow (m : AffineMat) (_shape : List Nat) : List Nat → List ℚ :=
  fun idx =>
    List.zipWith (fun row t => dotQ row (List.map (Nat.cast : Nat → ℚ) idx) + t)
      m.linear m.offset

/-- Recognize a coordinate vector that lies exactly on the input grid:
every coordinate is an exact integer (`den = 1`), non-negative, and
below the corresponding shape entry.  Returns the integer multi-index. -/
def exactCoords : List ℚ → List Nat → Option (List Nat)
  | [], [] => some []
  | q :: qs, d :: ds =>
    if q.den = 1 ∧ 0 ≤ q.num ∧ q.num < (d : Int) then
      (exactCoords qs ds).map (q.num.toNat :: ·)
    else none
  | _, _ => none

/-- Executable model of off-grid spline evaluation: order-0-style
rounding inside the support, constant fill `cval = 0` outside (the
`cval=0` argument of every `map_coordinates` call in `spatial.py`).
Stand-in for scipy's spline code; no theorem depends on these values. -/
def interpFallback (arr : NDArray) (c : List ℚ) : ℚ :=
  if c.length = arr.ndim ∧
      (c.zip arr.shape).all (fun p => -(1 : ℚ) / 2 ≤ p.1 ∧ (p.1 : ℚ) < (p.2 : ℚ) - 1 / 2) then
    arr.val ((c.zip arr.shape).map (fun p => min (p.2 - 1) (p.1 + 1 / 2).floor.toNat))
  else 0

/-- Value of spline interpolation of the input array at one coordinate
vector: at an exact in-range integer coordinate it is the array value
there — the documented knot-exactness of scipy's spline interpolation,
for every order in `[0, 5]` — and off the grid it is the modelled
fallback. -/
def sampleAt (arr : NDArray) (c : List ℚ) : ℚ :=
  match exactCoords c arr.shape with
  | some i => arr.val i
  | none => interpFallback arr c

/-- Model of `scipy.ndimage.map_coordinates(arr, locs, order=order,
cval=0)` followed by the `reshape` of the flat result back to `outShape`
(spatial.py lines 72-74 and 150-152): scipy rejects a spline order
outside `[0, 5]`, modelled as the `invalidParameter` error; otherwise
the output voxel at multi-index `i` is the interpolated value of `arr`
at that voxel's coordinate vector. -/
def map_coordinates (arr : NDArray) (coords : List Nat → List ℚ) (order : Int)
    (outShape : List Nat) : Except PynetError NDArray :=
  if 0 ≤ order ∧ order ≤ 5 then
    Except.ok ⟨outShape, fun i => sampleAt arr (coords i)⟩
  else
    Except.error PynetError.invalidParameter

/-- The rotation-angle draw of `affine` (spatial.py lines 59-60): one
call of `random_generator` on the rotation interval, one angle per
array axis. -/
def affineRotations (rotation : IntervalArg) (n : Nat) (dist : String)
    (seed : Option Nat) (g : RandomState) : Except PynetError (List ℚ) × RandomState :=
  random_generator (interval rotation) n dist seed g

/-- The translation-offset draw of `affine` (spatial.py lines 61-62):
one call of `random_generator` on the translation interval, one offset
per array axis, fed with the same `seed` argument as the rotation
draw. -/
def affineTranslations (translation : IntervalArg) (n : Nat) (dist : String)
    (seed : Option Nat) (g : RandomState) : Except PynetError (List ℚ) × RandomState :=
  random_generator (interval translation) n dist seed g

/-- Model of `affine` (spatial.py lines 25-74): draw rotations and
translations through `random_generator` (both with the caller's `seed`),
reseed and draw `ndim` zoom factors uniformly from `[1-zoom, 1+zoom]`,
build the rotation matrix with `Rotation.from_euler("xyz", ...)` — which
rejects an angle vector whose length differs from 3, the
`dimensionMismatch` error, so only rank-3 arrays proceed — compose the
affine map, build the coordinate field and resample.  Errors of
`random_generator` propagate (a Python exception aborts the call). -/
def affine (arr : NDArray) (rotation translation : IntervalArg) (zoom : ℚ)
    (order : Int) (dist : String) (seed : Option Nat) (g : RandomState) :
    Except PynetError NDArray × RandomState :=
  match affineRotations rotation arr.ndim dist seed g with
  | (Except.error e, g1) => (Except.error e, g1)
  | (Except.ok rots, g1) =>
    match affineTranslations translation arr.ndim dist seed g1 with
    | (Except.error e, g2) => (Except.error e, g2)
    | (Except.ok tras, g2) =>
      match npUniform (1 - zoom) (1 + zoom) arr.ndim (npSeed seed g2) with
      | (zooms, g3) =>
        if arr.ndim = 3 then
          (map_coordinates arr
            (affine_flow (compose tras (eulerXYZ rots) zooms) arr.shape)
            order arr.shape, g3)
        else
          (Except.error PynetError.dimensionMismatch, g3)

/-- Model of `flip` (spatial.py lines 77-98): with an explicit axis the
array is mirrored along it directly — the random generator is neither
seeded nor drawn from; with `axis=None` the generator is seeded and one
axis index is drawn uniformly from `[0, ndim)`. -/
def flip (arr : NDArray) (axis : Option Nat) (seed : Option Nat) (g : RandomState) :
    NDArray × RandomState :=
  match axis with
  | some k => (npFlip arr k, g)
  | none =>
    match npRandint 0 arr.ndim 1 (npSeed seed g) with
    | (ks, g1) => (npFlip arr (ks.getD 0 0), g1)

/-- Value grid of the modelled random scalar field: the variate the
seeded stream assigns to cell `(i, j)` of an `s0 × s1` field, drawn
row-major, mapped affinely into `(-1, 1)` so the field carries both
signs (a Gaussian field is zero-centred).  The smoothness parameter
`alpha` shapes only the spectrum (smoothness) of the real generator,
which no claim depends on, so the stand-in does not consume it. -/
def grfVal (_alpha : ℚ) (sv : Nat) (s1 : Nat) (i j : Nat) : ℚ :=
  2 * ((mix sv (i * s1 + j) % 1009 : Nat) : ℚ) / 1009 - 1

/-- Modelled from the spec: `gaussian_random_field` from
`pynet.augmentation.transform` (not under `src/`).  Per §4.4 it
generates a smooth 2-D random scalar field over the given `s0 × s1`
grid from a power-law spectrum parameterized by `alpha`, reseeding the
generator from its `seed` argument when one is supplied so the field is
reproducible (§3 invariant, §4.4 step 1); the concrete cell values are
the executable stand-in `grfVal`.  The `normalize=True` flag of the
call sites is left to this raw field; the per-axis normalization the
claims speak about is the explicit `flow /= flow.max()` of
`deformation` itself. -/
def gaussian_random_field (s0 s1 : Nat) (alpha : ℚ) (seed : Option Nat)
    (g : RandomState) : (Nat → Nat → ℚ) × RandomState :=
  (grfVal alpha (npSeed seed g).seedVal s1, ⟨(npSeed seed g).seedVal, s0 * s1⟩)

/-- Row-major listing of an `s0 × s1` field — the flat buffer numpy
reductions such as `.max()` traverse. -/
def fieldList (f : Nat → Nat → ℚ) (s0 s1 : Nat) : List ℚ :=
  (List.range (s0 * s1)).map (fun t => f (t / s1) (t % s1))

/-- Model of numpy `.max()` on a flat buffer (0 on an empty buffer; the
claims only use it on non-empty fields). -/
def npMax : List ℚ → ℚ
  | [] => 0
  | x :: xs => xs.foldl max x

/-- The per-axis field normalization of `deformation` (spatial.py lines
131, 137, 143): every cell is divided by the field's maximum value —
its plain maximum, not its maximum absolute value. -/
def normField (f : Nat → Nat → ℚ) (s0 s1 : Nat) (i j : Nat) : ℚ :=
  f i j / npMax (fieldList f s0 s1)

/-- The displacement `deformation` adds to the identity coordinate grid
on one axis at in-plane cell `(i, j)`: the normalized field value scaled
by `max_displacement` (spatial.py lines 131, 146, 149). -/
def dispVal (f : Nat → Nat → ℚ) (s0 s1 : Nat) (md : ℚ) (i j : Nat) : ℚ :=
  normField f s0 s1 i j * md

/-- Model of `deformation` (spatial.py lines 101-152): three 2-D random
fields over the first two axes (seeded with `seed`, `seed+2`, `seed+4`
when a seed is given, all unseeded otherwise), each normalized by its
maximum, broadcast along the last axis, scaled by `max_displacement` and
added to the identity coordinate grid (the `meshgrid`/`transpose`
construction of lines 147-148 is exactly the identity grid); the array
is then resampled at those coordinates.  The coordinate arithmetic only
broadcasts for rank-3 arrays — numpy fails on the grid/flow shape
mismatch for any other rank, after the fields are drawn — modelled as
the `dimensionMismatch` error. -/
def deformation (arr : NDArray) (max_displacement alpha : ℚ) (order : Int)
    (seed : Option Nat) (g : RandomState) : Except PynetError NDArray × RandomState :=
  match gaussian_random_field (arr.shape.getD 0 0) (arr.shape.getD 1 0) alpha seed g with
  | (fx, g1) =>
    match gaussian_random_field (arr.shape.getD 0 0) (arr.shape.getD 1 0) alpha
        (seed.map (· + 2)) g1 with
    | (fy, g2) =>
      match gaussian_random_field (arr.shape.getD 0 0) (arr.shape.getD 1 0) alpha
          (seed.map (· + 4)) g2 with
      | (fz, g3) =>
        if arr.ndim = 3 then
          (map_coordinates arr
            (fun idx =>
              [(idx.getD 0 0 : ℚ) +
                 dispVal fx (arr.shape.getD 0 0) (arr.shape.getD 1 0) max_displacement
                   (idx.getD 0 0) (idx.getD 1 0),
               (idx.getD 1 0 : ℚ) +
                 dispVal fy (arr.shape.getD 0 0) (arr.shape.getD 1 0) max_displacement
                   (idx.getD 0 0) (idx.getD 1 0),
               (idx.getD 2 0 : ℚ) +
                 dispVal fz (arr.shape.getD 0 0) (arr.shape.getD 1 0) max_displacement
                   (idx.getD 0 0) (idx.getD 1 0)])
            order arr.shape, g3)
        else
          (Except.error PynetError.dimensionMismatch, g3)


/-- Concrete rank-1 sample array (shape `[3]`) for witnesses. -/
def W1 : NDArray := ⟨[3], fun i => (i.getD 0 0 : ℚ)⟩

/-- Concrete rank-2 sample array (shape `[2, 3]`) for witnesses. -/
def W2 : NDArray := ⟨[2, 3], fun i => (i.getD 0 0 : ℚ) + 10 * (i.getD 1 0 : ℚ)⟩

/-- Concrete rank-3 sample array (shape `[2, 2, 2]`) for witnesses. -/
def W3 : NDArray :=
  ⟨[2, 2, 2], fun i =>
    (i.getD 0 0 : ℚ) + 10 * (i.getD 1 0 : ℚ) + 100 * (i.getD 2 0 : ℚ)⟩

/-- A concrete incoming generator state for witnesses. -/
def g0 : RandomState := ⟨0, 0⟩

/-! ### Helper lemmas -/

/-- Seeding with an integer seed erases the previous generator state. -/
@[simp]
theorem npSeed_some (s : Nat) (g : RandomState) : npSeed (some s) g = ⟨s, 0⟩ := rfl

/-- A `random_generator` call on a supported distribution with an
integer seed is independent of the incoming generator state: it reseeds
before every draw.  (On an unsupported distribution the error is thrown
before any seeding, so there the untouched state is the incoming one.) -/
theorem random_generator_seeded (I : ℚ × ℚ) (size : Nat) (dist : String) (s : Nat)
    (g g' : RandomState) (h : dist = "uniform" ∨ dist = "lognormal") :
    random_generator I size dist (some s) g = random_generator I size dist (some s) g' := by
  rcases h with h | h <;> subst h <;> rfl

/-- On a supported distribution `random_generator` always succeeds: the
`"uniform"` and `"lognormal"` branches return drawn values and never
raise. -/
theorem random_generator_isOk (I : ℚ × ℚ) (size : Nat) (dist : String)
    (seed : Option Nat) (g : RandomState)
    (h : dist = "uniform" ∨ dist = "lognormal") :
    ∃ vs g1, random_generator I size dist seed g = (Except.ok vs, g1) := by
  rcases h with h | h <;> subst h
  · exact ⟨_, _, rfl⟩
  · exact ⟨_, _, rfl⟩

/-- Membership in the row-major index enumeration is pointwise
boundedness by the shape. -/
theorem mem_allIndices {s i : List Nat} :
    i ∈ allIndices s ↔ List.Forall₂ (fun a b => a < b) i s := by
  induction s generalizing i with
  | nil =>
    simp [allIndices, List.forall₂_nil_right_iff]
  | cons d ds ih =>
    cases i with
    | nil =>
      simp only [allIndices, List.mem_flatMap, List.mem_map, List.mem_range]
      constructor
      · rintro ⟨x, -, t, -, h⟩
        exact absurd h (by simp)
      · intro h
        exact absurd h (by simp [List.forall₂_cons])
    | cons x t =>
      simp only [allIndices, List.mem_flatMap, List.mem_map, List.mem_range,
        List.forall₂_cons]
      constructor
      · rintro ⟨a, ha, l, hl, hx⟩
        cases hx
        exact ⟨ha, ih.mp hl⟩
      · rintro ⟨hx, ht⟩
        exact ⟨x, hx, t, ih.mpr ht, rfl⟩

/-- Reflecting a valid multi-index twice along the same axis gives the
index back. -/
theorem flipIdx_flipIdx {i s : List Nat} (k : Nat)
    (h : List.Forall₂ (fun a b => a < b) i s) :
    flipIdx s k (flipIdx s k i) = i := by
  induction h generalizing k with
  | nil => cases k <;> rfl
  | @cons x d t ds hxd _ ih =>
    cases k with
    | zero =>
      simp only [flipIdx]
      congr 1
      omega
    | succ k =>
      simp only [flipIdx]
      rw [ih k]

/-- On a valid multi-index, the flip index map is the arithmetic
reflection of coordinate `k`: entry `k` becomes
`shape[k] - 1 - index[k]` and all other entries are unchanged. -/
theorem flipIdx_eq_set {i s : List Nat} (k : Nat)
    (h : List.Forall₂ (fun a b => a < b) i s) :
    flipIdx s k i = i.set k (s.getD k 0 - 1 - i.getD k 0) := by
  induction h generalizing k with
  | nil => cases k <;> rfl
  | @cons x d t ds hxd _ ih =>
    cases k with
    | zero => simp [flipIdx]
    | succ k => simp [flipIdx, ih k]

/-- The seed value of a fold of `max` dominates its initial value. -/
theorem le_foldlMax (l : List ℚ) (x : ℚ) : x ≤ l.foldl max x := by
  induction l generalizing x with
  | nil => exact le_refl x
  | cons y ys ih => exact le_trans (le_max_left x y) (ih (max x y))

/-- Every member of a buffer is bounded by its numpy maximum. -/
theorem le_npMax {a : ℚ} {l : List ℚ} (h : a ∈ l) : a ≤ npMax l := by
  have key : ∀ (m : List ℚ) (x b : ℚ), b ∈ m → b ≤ m.foldl max x := by
    intro m
    induction m with
    | nil => intro x b hb; cases hb
    | cons y ys ih =>
      intro x b hb
      rcases List.mem_cons.mp hb with rfl | h2
      · exact le_trans (le_max_right x b) (le_foldlMax ys (max x b))
      · exact ih (max x y) b h2
  cases l with
  | nil => cases h
  | cons x xs =>
    rcases List.mem_cons.mp h with rfl | h2
    · exact le_foldlMax xs a
    · exact key xs x a h2

/-- The value of a field at an in-range cell occurs in the field's
row-major buffer. -/
theorem fieldVal_mem_fieldList (f : Nat → Nat → ℚ) {s0 s1 i j : Nat}
    (hi : i < s0) (hj : j < s1) : f i j ∈ fieldList f s0 s1 := by
  have hj0 : 0 < s1 := by omega
  have ht : i * s1 + j < s0 * s1 := by
    calc i * s1 + j < i * s1 + s1 := by omega
      _ = (i + 1) * s1 := by ring
      _ ≤ s0 * s1 := Nat.mul_le_mul_right s1 hi
  have hdiv : (i * s1 + j) / s1 = i := by
    rw [Nat.add_comm, Nat.add_mul_div_right j i hj0, Nat.div_eq_of_lt hj, Nat.zero_add]
  have hmod : (i * s1 + j) % s1 = j := by
    rw [Nat.add_comm, Nat.add_mul_mod_self_right, Nat.mod_eq_of_lt hj]
  unfold fieldList
  rw [List.mem_map]
  exact ⟨i * s1 + j, List.mem_range.mpr ht, by rw [hdiv, hmod]⟩

/-- A valid integer multi-index, cast to rational coordinates, is
recognized as exactly on the grid. -/
theorem exactCoords_natCast {i s : List Nat}
    (h : List.Forall₂ (fun a b => a < b) i s) :
    exactCoords (List.map (Nat.cast : Nat → ℚ) i) s = some i := by
  induction h with
  | nil => rfl
  | @cons x d t ds hxd _ ih =>
    simp only [List.map_cons, exactCoords]
    rw [if_pos]
    · rw [ih]
      simp
    · refine ⟨Rat.den_natCast x, ?_, ?_⟩
      · rw [Rat.num_natCast]; exact Int.ofNat_nonneg x
      · rw [Rat.num_natCast]; exact_mod_cast hxd

/-- Spline resampling at a valid integer grid coordinate returns the
array value there (knot exactness). -/
theorem sampleAt_natCast (arr : NDArray) {i : List Nat}
    (h : List.Forall₂ (fun a b => a < b) i arr.shape) :
    sampleAt arr (List.map (Nat.cast : Nat → ℚ) i) = arr.val i := by
  unfold sampleAt
  rw [exactCoords_natCast h]


/-- A successful `map_coordinates` result has the requested output
shape. -/
theorem map_coordinates_shape {arr : NDArray} {coords : List Nat → List ℚ}
    {order : Int} {outShape : List Nat} {out : NDArray}
    (h : map_coordinates arr coords order outShape = Except.ok out) :
    out.shape = outShape := by
  unfold map_coordinates at h
  split at h
  · injection h with h1
    rw [← h1]
  · simp at h

/-- With an integer seed, the output of `affine` does not depend on the
incoming state of the process-wide random generator: every draw happens
after an explicit `np.random.seed(seed)`. -/
theorem affine_seeded (arr : NDArray) (rotation translation : IntervalArg) (zoom : ℚ)
    (order : Int) (dist : String) (s : Nat) (g g' : RandomState) :
    (affine arr rotation translation zoom order dist (some s) g).1 =
      (affine arr rotation translation zoom order dist (some s) g').1 := by
  by_cases h1 : dist = "uniform"
  · subst h1; rfl
  · by_cases h2 : dist = "lognormal"
    · subst h2; rfl
    · unfold affine affineRotations
      rw [show ∀ g0, random_generator (interval rotation) arr.ndim dist (some s) g0 =
            (Except.error PynetError.unsupportedDistribution, g0) from
          fun g0 => by unfold random_generator; rw [if_neg h1, if_neg h2],
        show ∀ g0, random_generator (interval rotation) arr.ndim dist (some s) g0 =
            (Except.error PynetError.unsupportedDistribution, g0) from
          fun g0 => by unfold random_generator; rw [if_neg h1, if_neg h2]]

/-- With an integer seed, the output of `flip` does not depend on the
incoming state of the process-wide random generator. -/
theorem flip_seeded (arr : NDArray) (axis : Option Nat) (s : Nat) (g g' : RandomState) :
    (flip arr axis (some s) g).1 = (flip arr axis (some s) g').1 := by
  cases axis <;> rfl

/-- With an integer seed, the output of `deformation` does not depend on
the incoming state of the process-wide random generator. -/
theorem deformation_seeded (arr : NDArray) (max_displacement alpha : ℚ) (order : Int)
    (s : Nat) (g g' : RandomState) :
    (deformation arr max_displacement alpha order (some s) g).1 =
      (deformation arr max_displacement alpha order (some s) g').1 := rfl

/-! ### Claim theorems -/

/-- C1: For every input array and every integer seed `s`, calling the
same transform (`affine`, `flip`, or `deformation`) twice with identical
arguments including `seed = s` yields bit-identical output arrays —
the output is independent of the state the process-wide generator is in
when the call starts, because every draw follows an explicit reseed; in
particular `affine(A, seed=42)` (all other arguments at their defaults)
called twice yields bit-identical output. -/
theorem C1_same_seed_bit_identical :
    (∀ (arr : NDArray) (rotation translation : IntervalArg) (zoom : ℚ) (order : Int)
        (dist : String) (s : Nat) (g g' : RandomState),
        (affine arr rotation translation zoom order dist (some s) g).1 =
          (affine arr rotation translation zoom order dist (some s) g').1) ∧
    (∀ (arr : NDArray) (axis : Option Nat) (s : Nat) (g g' : RandomState),
        (flip arr axis (some s) g).1 = (flip arr axis (some s) g').1) ∧
    (∀ (arr : NDArray) (max_displacement alpha : ℚ) (order : Int) (s : Nat)
        (g g' : RandomState),
        (deformation arr max_displacement alpha order (some s) g).1 =
          (deformation arr max_displacement alpha order (some s) g').1) ∧
    (∀ (arr : NDArray) (g g' : RandomState),
        (affine arr (.scalar 10) (.scalar 10) (1 / 5) 3 "uniform" (some 42) g).1 =
          (affine arr (.scalar 10) (.scalar 10) (1 / 5) 3 "uniform" (some 42) g').1) :=
  ⟨affine_seeded, flip_seeded, deformation_seeded,
   fun arr g g' => affine_seeded arr (.scalar 10) (.scalar 10) (1 / 5) 3 "uniform" 42 g g'⟩

/-- C2: For every array `A` and every axis index `k` in `[0, A.ndim)`,
applying `flip` twice along the same axis returns the original array
exactly — bit-identically, with no interpolation: `flip` is a pure index
reversal (`npFlip`). -/
theorem C2_flip_involution (A : NDArray) (k : Nat) (s s' : Option Nat)
    (g g' : RandomState) (_hk : k < A.ndim) :
    Ident ((flip ((flip A (some k) s g).1) (some k) s' g').1) A := by
  show Ident (npFlip (npFlip A k) k) A
  have hl : (allIndices A.shape).map (npFlip (npFlip A k) k).val =
      (allIndices A.shape).map A.val :=
    List.map_congr_left
      (fun i hi => congrArg A.val (flipIdx_flipIdx k (mem_allIndices.mp hi)))
  exact congrArg (fun l => (A.shape, l)) hl

/-- Witness for C2 at a concrete input: flipping the `2 × 3` sample
array twice along axis 1 reproduces it bit-identically. -/
theorem C2_flip_involution_witness :
    Ident ((flip ((flip W2 (some 1) none g0).1) (some 1) (some 4) g0).1) W2 :=
  C2_flip_involution W2 1 none (some 4) g0 g0 (by decide)

/-- C3: Whenever `affine` or `deformation` returns an array, its shape
equals the input array's shape exactly.  (The embedding is purely
functional: the input array value is never mutated, matching the code,
which only reads `arr`.) -/
theorem C3_shape_preserved :
    (∀ (arr : NDArray) (rotation translation : IntervalArg) (zoom : ℚ) (order : Int)
        (dist : String) (seed : Option Nat) (g : RandomState) (out : NDArray),
        (affine arr rotation translation zoom order dist seed g).1 = Except.ok out →
        out.shape = arr.shape) ∧
    (∀ (arr : NDArray) (max_displacement alpha : ℚ) (order : Int) (seed : Option Nat)
        (g : RandomState) (out : NDArray),
        (deformation arr max_displacement alpha order seed g).1 = Except.ok out →
        out.shape = arr.shape) := by
  constructor
  · intro arr rotation translation zoom order dist seed g out h
    unfold affine at h
    split at h
    · simp at h
    · split at h
      · simp at h
      · split at h
        split at h
        · exact map_coordinates_shape h
        · simp at h
  · intro arr max_displacement alpha order seed g out h
    unfold deformation at h
    split at h
    split at h
    split at h
    split at h
    · exact map_coordinates_shape h
    · simp at h

/-- Witness for C3 at concrete inputs: `affine` and `deformation` on the
`2 × 2 × 2` sample array succeed and preserve the shape. -/
theorem C3_shape_preserved_witness :
    ((affine W3 (.scalar 10) (.scalar 10) (1 / 5) 3 "uniform" (some 42) g0).1.toOption.getD
        W1).shape = W3.shape ∧
    ((deformation W3 4 3 3 (some 7) g0).1.toOption.getD W1).shape = W3.shape :=
  ⟨C3_shape_preserved.1 W3 (.scalar 10) (.scalar 10) (1 / 5) 3 "uniform" (some 42) g0 _
      (by rfl),
   C3_shape_preserved.2 W3 4 3 3 (some 7) g0 _ (by rfl)⟩

/-- C4: `random_generator` fails with the unsupported-distribution error
exactly when the distribution name is neither `"uniform"` nor
`"lognormal"`; in particular `random_generator((0,1), 5, dist="bogus")`
raises it, and the `"uniform"` / `"lognormal"` branches never produce
it. -/
theorem C4_unsupported_distribution :
    (∀ (I : ℚ × ℚ) (size : Nat) (dist : String) (seed : Option Nat) (g : RandomState),
        (random_generator I size dist seed g).1 =
            Except.error PynetError.unsupportedDistribution ↔
          ¬(dist = "uniform" ∨ dist = "lognormal")) ∧
    (random_generator (0, 1) 5 "bogus" none g0).1 =
      Except.error PynetError.unsupportedDistribution := by
  constructor
  · intro I size dist seed g
    constructor
    · intro herr hd
      obtain ⟨vs, g1, hok⟩ := random_generator_isOk I size dist seed g hd
      rw [hok] at herr
      simp at herr
    · intro hd
      have h1 : ¬dist = "uniform" := fun h => hd (Or.inl h)
      have h2 : ¬dist = "lognormal" := fun h => hd (Or.inr h)
      unfold random_generator
      rw [if_neg h1, if_neg h2]
  · have h1 : ¬("bogus" : String) = "uniform" := by decide
    have h2 : ¬("bogus" : String) = "lognormal" := by decide
    unfold random_generator
    rw [if_neg h1, if_neg h2]

/-- Displacement at zero `max_displacement` vanishes. -/
theorem dispVal_zero (f : Nat → Nat → ℚ) (s0 s1 i j : Nat) :
    dispVal f s0 s1 0 i j = 0 :=
  mul_zero _

/-- Counterexample for C5: in `deformation`, the per-axis field
normalization divides by the field's plain maximum, so when the field's
minimum is more negative than its maximum is positive the normalized
value drops below `-1` and the displacement magnitude exceeds
`max_displacement`.  Concretely, for a `2 × 2` in-plane field with the
default `alpha = 3` and seed 2 (the first field of
`deformation(arr, max_displacement=4, alpha=3, seed=2)` on an array
with leading shape `2 × 2`), the modelled field is
`[149/1009, 9/1009, -131/1009, -271/1009]`: its cell `(1, 1)`
normalizes to `-271/149 < -1`, giving displacement `-1084/149 < -4`. -/
theorem C5_cex_displacement_exceeds_bound :
    normField ((gaussian_random_field 2 2 3 (some 2) g0).1) 2 2 1 1 < -1 ∧
      dispVal ((gaussian_random_field 2 2 3 (some 2) g0).1) 2 2 4 1 1 < -4 := by
  have hfl : fieldList ((gaussian_random_field 2 2 3 (some 2) g0).1) 2 2 =
      [149 / 1009, 9 / 1009, -131 / 1009, -271 / 1009] := by
    norm_num [fieldList, List.range_succ, gaussian_random_field, grfVal, npSeed, g0, mix]
  have hmax : npMax (fieldList ((gaussian_random_field 2 2 3 (some 2) g0).1) 2 2) =
      149 / 1009 := by
    rw [hfl]
    norm_num [npMax, max_def]
  have hval : (gaussian_random_field 2 2 3 (some 2) g0).1 1 1 = -271 / 1009 := by
    norm_num [gaussian_random_field, grfVal, npSeed, g0, mix]
  constructor
  · unfold normField
    rw [hmax, hval]
    norm_num
  · unfold dispVal normField
    rw [hmax, hval]
    norm_num

/-- C5 (amended): after normalization the field values are only bounded
above by 1 (when the field maximum is positive), so for non-negative
`max_displacement` the signed per-axis displacement `deformation` adds
to the identity grid is at most `max_displacement`; the magnitude bound
fails in the negative direction (see the counterexample). -/
theorem C5_displacement_bounded_above (f : Nat → Nat → ℚ) (s0 s1 : Nat) (md : ℚ)
    (i j : Nat) (hi : i < s0) (hj : j < s1)
    (hmax : 0 < npMax (fieldList f s0 s1)) (hmd : 0 ≤ md) :
    dispVal f s0 s1 md i j ≤ md := by
  have hv : f i j ≤ npMax (fieldList f s0 s1) :=
    le_npMax (fieldVal_mem_fieldList f hi hj)
  have h1 : normField f s0 s1 i j ≤ 1 := by
    unfold normField
    rw [div_le_one hmax]
    exact hv
  calc dispVal f s0 s1 md i j = normField f s0 s1 i j * md := rfl
    _ ≤ 1 * md := mul_le_mul_of_nonneg_right h1 hmd
    _ = md := one_mul md

/-- Witness for the amended C5 at a concrete input: a `1 × 1` field with
value 1 and `max_displacement = 4` yields displacement at most 4. -/
theorem C5_displacement_bounded_above_witness :
    dispVal (fun a b => (a : ℚ) + (b : ℚ) + 1) 1 1 4 0 0 ≤ 4 :=
  C5_displacement_bounded_above (fun a b => (a : ℚ) + (b : ℚ) + 1) 1 1 4 0 0
    (by decide) (by decide)
    (by norm_num [npMax, fieldList, List.range_succ]) (by norm_num)

/-- Counterexample for C6: `affine` on an array of invalid rank with a
spline order outside `[0, 5]` fails with the rank error, not the
invalid-parameter error — the angle-vector length check of
`Rotation.from_euler` fires before `map_coordinates` ever validates the
order.  Concretely: the `2 × 3` sample array with `order = 7`. -/
theorem C6_cex_rank_error_preempts_order_error :
    (affine W2 (.scalar 10) (.scalar 10) (1 / 5) 7 "uniform" (some 0) g0).1 =
        Except.error PynetError.dimensionMismatch ∧
      (affine W2 (.scalar 10) (.scalar 10) (1 / 5) 7 "uniform" (some 0) g0).1 ≠
        Except.error PynetError.invalidParameter := by
  refine ⟨rfl, fun h => ?_⟩
  exact absurd (Except.error.inj h) (by decide)

/-- C6 (amended): for rank-3 input arrays (the only rank on which the
resampling step is reached) and a supported distribution, a spline order
outside `[0, 5]` makes `affine` fail with the invalid-parameter error
rather than clamping; `deformation` likewise for every rank-3 array.
Arrays of other ranks fail earlier with the rank error regardless of the
order. -/
theorem C6_invalid_order_rejected :
    (∀ (arr : NDArray) (rotation translation : IntervalArg) (zoom : ℚ) (order : Int)
        (dist : String) (seed : Option Nat) (g : RandomState),
        arr.ndim = 3 → (dist = "uniform" ∨ dist = "lognormal") →
        (order < 0 ∨ 5 < order) →
        (affine arr rotation translation zoom order dist seed g).1 =
          Except.error PynetError.invalidParameter) ∧
    (∀ (arr : NDArray) (max_displacement alpha : ℚ) (order : Int) (seed : Option Nat)
        (g : RandomState),
        arr.ndim = 3 → (order < 0 ∨ 5 < order) →
        (deformation arr max_displacement alpha order seed g).1 =
          Except.error PynetError.invalidParameter) := by
  have hmc : ∀ (arr : NDArray) (coords : List Nat → List ℚ) (order : Int),
      (order < 0 ∨ 5 < order) →
      map_coordinates arr coords order arr.shape =
        Except.error PynetError.invalidParameter := by
    intro arr coords order horder
    unfold map_coordinates
    rw [if_neg (by omega)]
  constructor
  · intro arr rotation translation zoom order dist seed g h3 hdist horder
    obtain ⟨rots, g1, h1⟩ :=
      random_generator_isOk (interval rotation) arr.ndim dist seed g hdist
    obtain ⟨tras, g2, hh2⟩ :=
      random_generator_isOk (interval translation) arr.ndim dist seed g1 hdist
    simp only [affine, affineRotations, affineTranslations, h1, hh2]
    rw [if_pos h3]
    exact hmc arr _ order horder
  · intro arr max_displacement alpha order seed g h3 horder
    simp only [deformation, gaussian_random_field]
    rw [if_pos h3]
    exact hmc arr _ order horder

/-- Witness for the amended C6 at concrete inputs: order 6 on the
`2 × 2 × 2` sample array is rejected by both transforms. -/
theorem C6_invalid_order_rejected_witness :
    (affine W3 (.scalar 10) (.scalar 10) (1 / 5) 6 "uniform" (some 0) g0).1 =
        Except.error PynetError.invalidParameter ∧
      (deformation W3 4 3 6 (some 0) g0).1 =
        Except.error PynetError.invalidParameter :=
  ⟨C6_invalid_order_rejected.1 W3 (.scalar 10) (.scalar 10) (1 / 5) 6 "uniform"
      (some 0) g0 rfl (Or.inl rfl) (by omega),
   C6_invalid_order_rejected.2 W3 4 3 6 (some 0) g0 rfl (by omega)⟩

/-- C7: for every input array whose rank is not 2 or 3 (and a supported
distribution, so the parameter draws succeed), `affine` fails fast with
the rank error before any coordinate field is built.  (In the code the
check is the angle-vector length test of `Rotation.from_euler`, which in
fact admits only rank 3.) -/
theorem C7_rank_mismatch_fails_fast (arr : NDArray) (rotation translation : IntervalArg)
    (zoom : ℚ) (order : Int) (dist : String) (seed : Option Nat) (g : RandomState)
    (hdist : dist = "uniform" ∨ dist = "lognormal")
    (_h2 : arr.ndim ≠ 2) (h3 : arr.ndim ≠ 3) :
    (affine arr rotation translation zoom order dist seed g).1 =
      Except.error PynetError.dimensionMismatch := by
  obtain ⟨rots, g1, h1⟩ :=
    random_generator_isOk (interval rotation) arr.ndim dist seed g hdist
  obtain ⟨tras, g2, hh2⟩ :=
    random_generator_isOk (interval translation) arr.ndim dist seed g1 hdist
  simp only [affine, affineRotations, affineTranslations, h1, hh2]
  rw [if_neg h3]

/-- Witness for C7 at a concrete input: `affine` on the rank-1 sample
array fails with the rank error. -/
theorem C7_rank_mismatch_fails_fast_witness :
    (affine W1 (.scalar 10) (.scalar 10) (1 / 5) 3 "uniform" none g0).1 =
      Except.error PynetError.dimensionMismatch :=
  C7_rank_mismatch_fails_fast W1 (.scalar 10) (.scalar 10) (1 / 5) 3 "uniform" none g0
    (Or.inl rfl) (by decide) (by decide)

/-- Counterexample for C8: inside `affine` the rotation draw and the
translation draw call `random_generator` with the same `seed`, and the
generator reseeds before each draw, so with equal intervals the two
drawn vectors are forced to be bit-identical — they are not independent.
Concretely: interval `(-10, 10)` (scalar 10), three axes, uniform
distribution, seed 3, where the translation draw starts from the exact
generator state the rotation draw left behind. -/
theorem C8_cex_rotation_equals_translation :
    (affineRotations (.scalar 10) 3 "uniform" (some 3) g0).1 =
      (affineTranslations (.scalar 10) 3 "uniform" (some 3)
        ((affineRotations (.scalar 10) 3 "uniform" (some 3) g0).2)).1 := rfl

/-- C8 (amended): the rotation and translation draws of `affine` are
reproducible given a seed, but they are not independently seeded: both
reseed with the caller's seed, so whenever the rotation and translation
intervals are equal the two drawn vectors coincide, whatever states the
generator is in before each draw. -/
theorem C8_same_seed_forces_equal_draws (I : IntervalArg) (n : Nat) (dist : String)
    (s : Nat) (g g' : RandomState) :
    (affineRotations I n dist (some s) g).1 =
      (affineTranslations I n dist (some s) g').1 := by
  unfold affineRotations affineTranslations
  by_cases h1 : dist = "uniform"
  · rw [random_generator_seeded (interval I) n dist s g g' (Or.inl h1)]
  · by_cases h2 : dist = "lognormal"
    · rw [random_generator_seeded (interval I) n dist s g g' (Or.inr h2)]
    · unfold random_generator
      rw [if_neg h1, if_neg h2, if_neg h1, if_neg h2]

/-- C9: for every rank-3 array, every seed (or none), and every spline
order in `[0, 5]`, `deformation` with `max_displacement = 0` returns the
original array exactly: the displacement field is scaled to zero, the
array is resampled on the identity grid, and spline interpolation at
the knots reproduces every value. -/
theorem C9_zero_displacement_identity (arr : NDArray) (alpha : ℚ) (order : Int)
    (seed : Option Nat) (g : RandomState) (h3 : arr.ndim = 3)
    (h0 : 0 ≤ order) (h5 : order ≤ 5) :
    okIdent (deformation arr 0 alpha order seed g).1 arr := by
  obtain ⟨a, b, c, hs⟩ := List.length_eq_three.mp h3
  simp only [deformation, gaussian_random_field]
  rw [if_pos h3]
  unfold okIdent map_coordinates
  rw [if_pos ⟨h0, h5⟩]
  unfold NDArray.sig NDArray.toList
  simp only [Except.toOption, Option.map_some', Option.some_inj, Prod.mk.injEq]
  refine ⟨trivial, List.map_congr_left ?_⟩
  intro i hi
  have hf := mem_allIndices.mp hi
  have hlen : i.length = 3 := hf.length_eq.trans h3
  obtain ⟨x, y, z, rfl⟩ := List.length_eq_three.mp hlen
  rw [hs] at hf
  rw [List.forall₂_cons, List.forall₂_cons, List.forall₂_cons] at hf
  obtain ⟨hxa, hyb, hzc, -⟩ := hf
  simp only [dispVal_zero, add_zero, List.getD_cons_zero, List.getD_cons_succ]
  have hforall : List.Forall₂ (fun u v => u < v) [x, y, z] arr.shape := by
    rw [hs]
    exact List.Forall₂.cons hxa (List.Forall₂.cons hyb
      (List.Forall₂.cons hzc List.Forall₂.nil))
  exact sampleAt_natCast arr hforall

/-- Witness for C9 at a concrete input: zero-displacement `deformation`
of the `2 × 2 × 2` sample array with seed 5 reproduces it
bit-identically. -/
theorem C9_zero_displacement_identity_witness :
    okIdent (deformation W3 0 3 3 (some 5) g0).1 W3 :=
  C9_zero_displacement_identity W3 3 3 (some 5) g0 rfl (by decide) (by decide)

/-- C10: when an explicit axis is supplied, `flip` ignores the seed and
performs no random draw — the generator state is returned untouched and
the result is the deterministic mirror `npFlip`; on every valid index
the mirrored value is the input value at the index whose coordinate `k`
is reflected to `shape[k] - 1 - index[k]`. -/
theorem C10_explicit_axis_deterministic :
    (∀ (A : NDArray) (k : Nat) (s : Option Nat) (g : RandomState),
        flip A (some k) s g = (npFlip A k, g)) ∧
    (∀ (A : NDArray) (k : Nat) (s : Option Nat) (g : RandomState) (i : List Nat),
        k < A.ndim → List.Forall₂ (fun u v => u < v) i A.shape →
        (flip A (some k) s g).1.val i =
          A.val (i.set k (A.shape.getD k 0 - 1 - i.getD k 0))) := by
  refine ⟨fun A k s g => rfl, fun A k s g i hk hi => ?_⟩
  show A.val (flipIdx A.shape k i) = _
  rw [flipIdx_eq_set k hi]

/-- Witness for C10 at a concrete input: flipping the `2 × 3` sample
array along axis 1 mirrors index `[0, 1]` to `[0, 3 - 1 - 1]`,
whatever the seed. -/
theorem C10_explicit_axis_deterministic_witness :
    (flip W2 (some 1) (some 9) g0).1.val [0, 1] =
      W2.val ([0, 1].set 1 (W2.shape.getD 1 0 - 1 - [0, 1].getD 1 0)) :=
  C10_explicit_axis_deterministic.2 W2 1 (some 9) g0 [0, 1] (by decide)
    (List.Forall₂.cons (by decide) (List.Forall₂.cons (by decide) List.Forall₂.nil))

end Pynet
